import Mathlib

/-!
# Movement Reconstruction & Adaptive Timeline Layout Engine — verification

Shallow embedding of the core pipeline of the Rail_junction repository
(`modules/movement_analysis`): file-type classification and upload guards
(`data_load_movement_analysis.py`), the circuit-event correlator and the
movement aggregator (`data_filter_movement_analysis.py`), the two adaptive
sampling routines and lane-label placement (`plot_movement_analysis.py`), and
the lane layout planner (`calculate_y_positions`).

Embedding conventions:
* Timestamps are integers (seconds).  `pd.to_datetime(..., errors="coerce")`
  and the date+time concatenation of `process_timestamps` are modelled by rows
  carrying already-parsed optional timestamps (`none` models NaT, i.e. an
  unparsable value); the subsequent `dropna` is the explicit drop step.
* A CSV file is modelled as its column-name list together with its contents
  under the two readers the source applies to it (route-chart rows and
  circuit-data rows) and its modification time.
* Python string primitives (`lower`, `upper`, `strip`, `lstrip('0')`,
  `split('-')`, `isdigit`) are implemented character-level (ASCII, which is
  what the data uses) so that every definition evaluates inside the kernel.
* Sorting (`DataFrame.sort_values`, `list.sort`, sorted group keys) is a
  structural insertion sort `sortLe`; the claims never depend on the tie
  order of the source's quicksort.
* The real-valued distance/speed columns are modelled as unreduced integer
  fractions (`Frac`); no claim inspects their values.
* `DataFrame.sample` / stratified sampling (randomness) is modelled by an
  arbitrary selection oracle handed the candidate rows and the computed
  sample size; theorems about sampling hold for every oracle that picks
  among the candidates.
* Python dictionaries built by repeated assignment (`y_positions`,
  `circuit_route_map`) are modelled as assignment logs (association lists,
  later entries appended at the end).
-/

namespace RailJunction

/-! ## Kernel-computable string and sorting primitives -/

/-- Python `str.lower` (ASCII). -/
def strLower (s : String) : String := ⟨s.data.map Char.toLower⟩

/-- Python `str.upper` (ASCII). -/
def strUpper (s : String) : String := ⟨s.data.map Char.toUpper⟩

/-- Python `str.strip()`. -/
def strTrim (s : String) : String :=
  ⟨((s.data.dropWhile Char.isWhitespace).reverse.dropWhile Char.isWhitespace).reverse⟩

/-- Python `str.lstrip('0')`: drop leading zero characters. -/
def lstripZeros (s : String) : String := ⟨s.data.dropWhile (· == '0')⟩

/-- Python `str.isdigit`: non-empty and all characters are digits. -/
def pyIsDigit (s : String) : Bool := !s.data.isEmpty && s.data.all Char.isDigit

/-- Numeric value of a decimal digit string. -/
def digitsVal (s : String) : ℕ := s.data.foldl (fun a c => a * 10 + (c.toNat - 48)) 0

/-- Value of `pd.to_numeric(..., errors="coerce")` on a stored route id,
modelled for the plain decimal strings route ids are; anything else coerces
to `none` (NaN). -/
def toNumericVal? (s : String) : Option Int :=
  if pyIsDigit s then some (digitsVal s : Int) else none

/-- Lexicographic code-point comparison of strings (Python `sorted` order). -/
def charListLe : List Char → List Char → Bool
  | [], _ => true
  | _ :: _, [] => false
  | a :: as, b :: bs =>
    if a.toNat < b.toNat then true
    else if b.toNat < a.toNat then false
    else charListLe as bs

/-- Boolean string order used for sorted group keys. -/
def strLeB (a b : String) : Bool := charListLe a.data b.data

/-- Insert into a sorted list (helper of `sortLe`). -/
def insertLe {α : Type _} (le : α → α → Bool) (a : α) : List α → List α
  | [] => [a]
  | b :: t => if le a b then a :: b :: t else b :: insertLe le a t

/-- Structural stable insertion sort, standing in for the source's sorts. -/
def sortLe {α : Type _} (le : α → α → Bool) : List α → List α
  | [] => []
  | a :: t => insertLe le a (sortLe le t)

/-- Python `str.split('-')` on the character list (helper of `splitChain`). -/
def splitOnDashAux : List Char → List Char → List (List Char)
  | [], acc => [acc.reverse]
  | c :: cs, acc =>
    if c = '-' then acc.reverse :: splitOnDashAux cs []
    else splitOnDashAux cs (c :: acc)

/-- A dash-delimited `Route_circuit` chain split into trimmed circuit ids. -/
def splitChain (s : String) : List String :=
  (splitOnDashAux s.data []).map (fun l => strTrim ⟨l⟩)

/-- An unreduced integer fraction, modelling the real-valued distance /
average-speed columns (no claim inspects these values). -/
structure Frac where
  num : Int
  den : Int
deriving DecidableEq, Repr

/-- The unit distance constant `1.0` of the source. -/
def unitFrac : Frac := ⟨1, 1⟩

/-- The per-row speed lambda of the source:
`distance / duration_seconds * 3.6` guarded against non-positive duration
(`3.6 · d / t = 18 d / (5 t)`, kept unreduced). -/
def avgSpeed (dist : Frac) (dur : Int) : Frac :=
  if 0 < dur then ⟨dist.num * 18, dist.den * dur * 5⟩ else ⟨0, 1⟩

/-! ## Data model -/

/-- One row of a route-chart table: a route identifier and a dash-delimited
circuit chain (columns `Route_id`, `Route_circuit`). -/
structure RouteRow where
  route_id : String
  route_circuit : String
deriving DecidableEq, Repr

/-- One data row of a circuit-data or unified table, after timestamp parsing:
`down?`/`up?` are the parsed `Down_timestamp`/`Up_timestamp` (`none` models an
unparsable value, pandas NaT).  `route`/`movement`/`dist` carry the values of
the `Route_id`/`Movement_id`/`distance` columns, meaningful only when the
corresponding column exists on the file. -/
structure TrackRow where
  circuit : String
  down? : Option Int
  up? : Option Int
  movement : String
  route : String
  dist : Frac
deriving DecidableEq, Repr

/-- An uploaded CSV file: column names (as written in the file), its rows under
the route-chart reader and under the circuit-data reader, and its mtime. -/
structure CSVFile where
  cols : List String
  routeRows : List RouteRow
  rows : List TrackRow
  mtime : Int
deriving DecidableEq, Repr

/-- Classification by lower-cased column names (helper of
`identify_file_type`, mirroring its if-cascade). -/
def classifyCols (columns : List String) : String :=
  if "route_id" ∈ columns ∧ "route_circuit" ∈ columns then "route_chart"
  else if ("circuit_name" ∈ columns ∨ "circuit" ∈ columns) ∧
      (("down_timestamp" ∈ columns ∧ "up_timestamp" ∈ columns) ∨
       ("down_date" ∈ columns ∧ "up_date" ∈ columns)) then "circuit_data"
  else "unknown"

/-- Classification of an uploaded file by its (lower-cased) column names
(`identify_file_type`, data_load_movement_analysis.py lines 25-66). -/
def identify_file_type (f : CSVFile) : String :=
  classifyCols (f.cols.map strLower)

/-- All uploaded files of a given classified type (`find_files_by_type`). -/
def find_files_by_type (files : List CSVFile) (ft : String) : List CSVFile :=
  files.filter (fun f => identify_file_type f == ft)

/-- Python `max(files, key=os.path.getmtime)`: first file of maximal mtime. -/
def maxByMtime : CSVFile → List CSVFile → CSVFile
  | best, [] => best
  | best, f :: fs => maxByMtime (if best.mtime < f.mtime then f else best) fs

/-- Best available file of a type: none if there is no match, the single match,
or the most recent of several (`get_best_file_of_type`). -/
def get_best_file_of_type (files : List CSVFile) (ft : String) : Option CSVFile :=
  match find_files_by_type files ft with
  | [] => none
  | [f] => some f
  | f :: fs => some (maxByMtime f fs)

/-- Whether any upload classifies as a supported type (`has_uploaded_files`). -/
def has_uploaded_files (files : List CSVFile) : Bool :=
  files.any (fun f =>
    identify_file_type f == "route_chart" || identify_file_type f == "circuit_data")

/-- The upload guard: both a route-chart file and a circuit-data file must be
present (`has_required_uploads`; the error-message component is omitted). -/
def has_required_uploads (files : List CSVFile) : Bool :=
  !(find_files_by_type files "route_chart").isEmpty &&
    !(find_files_by_type files "circuit_data").isEmpty

/-- The tiered route-identifier matcher of the route-chart branch of
`get_circuit_data` (data_filter_movement_analysis.py lines 351-375): exact
string equality, then case-insensitive equality, then — for purely numeric
requests — equality after stripping leading zeros followed by numeric-value
equality. -/
def matchRoute (routeRows : List RouteRow) (route_name : String) : List RouteRow :=
  let exact := routeRows.filter (fun r => r.route_id == route_name)
  if !exact.isEmpty then exact
  else
    let ci := routeRows.filter (fun r => strUpper r.route_id == strUpper route_name)
    if !ci.isEmpty then ci
    else if pyIsDigit route_name then
      let no_zeros := lstripZeros route_name
      let byZeros :=
        if !no_zeros.isEmpty then
          routeRows.filter (fun r => lstripZeros r.route_id == no_zeros)
        else []
      if !byZeros.isEmpty then byZeros
      else
        routeRows.filter (fun r => toNumericVal? r.route_id == some (digitsVal route_name : Int))
    else []

/-- A correlated occupancy event, one output row of `get_circuit_data`
(`pos` is the derived `order` column). -/
structure Event where
  circuit : String
  down : Int
  up : Int
  duration : Int
  distance : Frac
  avg_speed : Frac
  movement : String
  route : String
  pos : ℕ
deriving DecidableEq, Repr

/-- The optional `[from_time, to_time]` filter, applied only when both bounds
are supplied: keep rows fully inside the window. -/
def timeWindowOk (window : Option (Int × Int)) (d u : Int) : Bool :=
  match window with
  | some (ft, tt) => ft ≤ d && u ≤ tt
  | none => true

/-- Position dictionary `{cid: idx for idx, cid in enumerate(circuit_ids)}`:
for duplicated circuit ids the later index wins. -/
def circuitOrder (chain : List String) (c : String) : ℕ :=
  chain.length - 1 - chain.reverse.indexOf c

/-- Rows of a combined-data file surviving the two-tier route filter of the
combined branch (`get_circuit_data` lines 200-228): exact match on the
stripped `Route_id`, else case-insensitive match.  (This branch has no
numeric fallback tier.) -/
def combinedFiltered (f : CSVFile) (route_name : String) : List TrackRow :=
  let rows := f.rows.map (fun r => { r with route := strTrim r.route })
  let exact := rows.filter (fun r => r.route == route_name)
  if exact.isEmpty then rows.filter (fun r => strUpper r.route == strUpper route_name)
  else exact

/-- Per-row index assignment `filtered_df["order"] = range(len(filtered_df))`. -/
def orderByIdx (l : List Event) : List Event :=
  l.enum.map (fun p => { p.2 with pos := p.1 })

/-- Per-movement cumulative count (`groupby("Movement_id").cumcount()` on the
movement/time-sorted frame). -/
def cumcountOrders (l : List Event) : List Event :=
  l.enum.map (fun p =>
    { p.2 with pos := ((l.take p.1).filter (fun x => x.movement == p.2.movement)).length })

/-- The combined-data branch of `get_circuit_data` (lines 182-282): route
filter, timestamp dropna, optional window, duration with positivity filter,
unit distance and speed, then movement ordering. -/
def combinedPipeline (f : CSVFile) (route_name : String)
    (window : Option (Int × Int)) : List Event :=
  if "Route_id" ∈ f.cols then
    let filtered := combinedFiltered f route_name
    if filtered.isEmpty then []
    else
      let ts := filtered.filterMap (fun r =>
        match r.down?, r.up? with
        | some d, some u => some (r, d, u)
        | _, _ => none)
      let ts := ts.filter (fun p => timeWindowOk window p.2.1 p.2.2)
      let evs := ts.map (fun p =>
        { circuit := p.1.circuit, down := p.2.1, up := p.2.2,
          duration := p.2.2 - p.2.1, distance := unitFrac,
          avg_speed := avgSpeed unitFrac (p.2.2 - p.2.1),
          movement := p.1.movement, route := p.1.route, pos := 0 })
      let evs := evs.filter (fun e => 0 < e.duration)
      if "Movement_id" ∈ f.cols then
        cumcountOrders (sortLe (fun a b =>
          charListLe a.movement.data b.movement.data &&
            (!(a.movement == b.movement) || decide (a.down ≤ b.down))) evs)
      else orderByIdx evs
  else []

/-- Track-side processing of the split branch (lines 309-349): timestamp
dropna, duration with positivity filter, distance (the file's column if
present, else the unit constant) and speed, then the optional window. -/
def splitTrackEvents (cf : CSVFile) (window : Option (Int × Int)) : List Event :=
  let ts := cf.rows.filterMap (fun r =>
    match r.down?, r.up? with
    | some d, some u => some (r, d, u)
    | _, _ => none)
  let evs := ts.map (fun p =>
    let dur := p.2.2 - p.2.1
    let dist := if "distance" ∈ cf.cols then p.1.dist else unitFrac
    { circuit := p.1.circuit, down := p.2.1, up := p.2.2, duration := dur,
      distance := dist, avg_speed := avgSpeed dist dur,
      movement := p.1.movement, route := p.1.route, pos := 0 })
  let evs := evs.filter (fun e => 0 < e.duration)
  evs.filter (fun e => timeWindowOk window e.down e.up)

/-- The route-chart + circuit-data branch of `get_circuit_data`
(lines 284-414): track cleaning, tiered route matching, chain membership
filter, chain-position ordering, and the compatibility `Route_id` /
`Movement_id` column stamps. -/
def splitPipeline (rfile cf : CSVFile) (route_name : String)
    (window : Option (Int × Int)) : List Event :=
  if "Route_id" ∈ rfile.cols then
    let routeRows := rfile.routeRows.map (fun r => { r with route_id := strTrim r.route_id })
    let evs := splitTrackEvents cf window
    match matchRoute routeRows route_name with
    | [] => []
    | m :: _ =>
      let circuit_ids := splitChain m.route_circuit
      let filtered := evs.filter (fun e => circuit_ids.contains e.circuit)
      if filtered.isEmpty then []
      else
        let ordered := filtered.map (fun e => { e with pos := circuitOrder circuit_ids e.circuit })
        let ordered := sortLe (fun a b => decide (a.pos ≤ b.pos)) ordered
        let ordered := ordered.map (fun e =>
          { e with route := if "Route_id" ∈ cf.cols then e.route else route_name })
        ordered.map (fun e =>
          { e with movement := if "Movement_id" ∈ cf.cols then e.movement else "M1" })
  else []

/-- The correlator `get_circuit_data` (lines 132-423): upload guard, then the
combined-data approach with first priority, then the route-chart +
circuit-data approach.  Every failure path of the source returns an empty
DataFrame (never an exception); the embedding is accordingly total. -/
def get_circuit_data (files : List CSVFile) (route_name : String)
    (window : Option (Int × Int)) : List Event :=
  if !has_required_uploads files then []
  else
    let rn := strTrim route_name
    match get_best_file_of_type files "combined_data" with
    | some f => combinedPipeline f rn window
    | none =>
      match get_best_file_of_type files "route_chart",
            get_best_file_of_type files "circuit_data" with
      | some rfile, some cfile => splitPipeline rfile cfile rn window
      | _, _ => []

/-! ## Movement aggregator -/

/-- One output row of `calculate_movement_times`: per-movement timing
aggregates. -/
structure MovementRecord where
  movement_id : String
  start_time : Int
  end_time : Int
  total_journey_seconds : Int
  total_circuit_seconds : Int
  circuit_count : ℕ
  average_circuit_duration : ℚ
deriving DecidableEq, Repr

/-- Minimum `Down_timestamp` of a group (`group["Down_timestamp"].min()`;
groups are always non-empty, the `[]` value is junk). -/
def minDown : List Event → Int
  | [] => 0
  | e :: es => es.foldl (fun a x => min a x.down) e.down

/-- Maximum `Up_timestamp` of a group. -/
def maxUp : List Event → Int
  | [] => 0
  | e :: es => es.foldl (fun a x => max a x.up) e.up

/-- Sum of the group's `duration_seconds`. -/
def sumDur (l : List Event) : Int := (l.map (·.duration)).sum

/-- The per-group row dictionary built by `calculate_movement_times`
(lines 453-478).  (The redundant `*_Minutes` columns, the seconds divided by
60, are omitted from the record.) -/
def movementRecordOf (mid : String) (g : List Event) : MovementRecord :=
  let s := minDown g
  let e := maxUp g
  let tc := sumDur g
  let n := g.length
  { movement_id := mid, start_time := s, end_time := e,
    total_journey_seconds := e - s,
    total_circuit_seconds := tc,
    circuit_count := n,
    average_circuit_duration := if 0 < n then (tc : ℚ) / (n : ℚ) else 0 }

/-- The aggregation core of `calculate_movement_times` (lines 450-488):
group the correlated events by `Movement_id` (pandas iterates group keys in
ascending order), build one record per group, and sort the non-empty result
by `Start_Time`. -/
def aggregateMovements (events : List Event) : List MovementRecord :=
  let mids := sortLe strLeB ((events.map (·.movement)).dedup)
  let recs := mids.map (fun mid =>
    movementRecordOf mid (events.filter (fun e => e.movement == mid)))
  if recs.isEmpty then recs
  else sortLe (fun a b => decide (a.start_time ≤ b.start_time)) recs

/-- The aggregator `calculate_movement_times` (lines 425-493): correlate,
short-circuit to an empty result on empty circuit data, else aggregate. -/
def calculate_movement_times (files : List CSVFile) (route_name : String)
    (window : Option (Int × Int)) : List MovementRecord :=
  let cd := get_circuit_data files route_name window
  if cd.isEmpty then [] else aggregateMovements cd

/-! ## Adaptive sampling

Both samplers iterate over the `(route, movement)` groups of the frame and
randomly sample the non-critical rows of each large group.  Row identity is
the source's `_temp_row_id` / DataFrame index, modelled by `List.enum`
indices.  The random `DataFrame.sample` (and its stratified variant, whose
per-bucket sizes depend on `pd.qcut` success) is an arbitrary selection
oracle `sel remaining sample_size`; theorems hold for every oracle whose
choices come from `remaining`. -/

/-- A selection oracle standing for the random sampling step. -/
abbrev Sel := List (ℕ × Event) → ℕ → List (ℕ × Event)

/-- Group iteration shared by both samplers: for each route of the frame in
turn, for each movement of that route's rows, process the movement's rows. -/
def groupsApply (proc : List (ℕ × Event) → List (ℕ × Event))
    (idf : List (ℕ × Event)) : List (ℕ × Event) :=
  ((idf.map (fun p => p.2.route)).dedup).flatMap (fun r =>
    let rd := idf.filter (fun p => p.2.route == r)
    ((rd.map (fun p => p.2.movement)).dedup).flatMap (fun m =>
      proc (rd.filter (fun p => p.2.movement == m))))

/-- Critical points of a movement group in the enhanced sampler
(plot_movement_analysis.py lines 423-440): per circuit, all rows when the
circuit has at most `2 * w` rows, else the first `w` and last `w` rows. -/
def criticalOf (w : ℕ) (g : List (ℕ × Event)) : List (ℕ × Event) :=
  ((g.map (fun p => p.2.circuit)).dedup).flatMap (fun c =>
    let cg := g.filter (fun p => p.2.circuit == c)
    if cg.length ≤ w * 2 then cg
    else cg.take w ++ cg.drop (cg.length - w))

/-- Per-group body of `apply_enhanced_adaptive_sampling` (lines 415-479):
groups of at most 20 rows pass through whole; larger groups keep their
critical points plus an oracle-chosen sample of the remaining rows
(`sample_size = max(1, int(len(remaining) * rate))`). -/
def sampleGroupEnhanced (sel : Sel) (rate : ℚ) (w : ℕ)
    (g : List (ℕ × Event)) : List (ℕ × Event) :=
  if g.length ≤ 20 then g
  else
    let critical := criticalOf w g
    let criticalIds := critical.map Prod.fst
    let remaining := g.filter (fun p => !(criticalIds.contains p.1))
    if 0 < remaining.length then
      let sample_size := max 1 (⌊(remaining.length : ℚ) * rate⌋.toNat)
      critical ++ sel remaining sample_size
    else critical

/-- The shared body of the enhanced sampler at a fixed (rate, window) tier:
tag rows with `_temp_row_id`, sample the groups, drop the tag and re-sort by
`Down_timestamp`. -/
def enhancedAt (sel : Sel) (rate : ℚ) (w : ℕ) (df : List Event) : List Event :=
  sortLe (fun a b => decide (a.down ≤ b.down))
    ((groupsApply (sampleGroupEnhanced sel rate w) df.enum).map Prod.snd)

/-- The enhanced sampler `apply_enhanced_adaptive_sampling` (lines 375-490):
spans of at most 48 hours pass through; otherwise the span picks the
(rate, critical-window) tier — 30%/3 up to one week, 15%/2 up to one month,
5%/1 beyond. -/
def apply_enhanced_adaptive_sampling (sel : Sel) (df : List Event)
    (time_span_hours : ℚ) : List Event :=
  if time_span_hours ≤ 48 then df
  else if time_span_hours ≤ 168 then enhancedAt sel (3 / 10) 3 df
  else if time_span_hours ≤ 720 then enhancedAt sel (15 / 100) 2 df
  else enhancedAt sel (5 / 100) 1 df

/-- Per-group body of the basic sampler `apply_adaptive_sampling`
(data_filter_movement_analysis.py lines 519-546): groups of at most 20 rows
pass through; larger groups keep the first and last row of each circuit plus
an oracle-chosen sample of the remaining rows
(`sample_size = min(len, max(10, int(len * factor)))`). -/
def sampleGroupBasic (sel : Sel) (factor : ℚ)
    (g : List (ℕ × Event)) : List (ℕ × Event) :=
  if 20 < g.length then
    let critical := ((g.map (fun p => p.2.circuit)).dedup).flatMap (fun c =>
      let cg := g.filter (fun p => p.2.circuit == c)
      cg.take 1 ++ cg.drop (cg.length - 1))
    let criticalIds := critical.map Prod.fst
    let remaining := g.filter (fun p => !(criticalIds.contains p.1))
    if 0 < remaining.length then
      let sample_size := min remaining.length
        (max 10 (⌊(remaining.length : ℚ) * factor⌋.toNat))
      critical ++ sel remaining sample_size
    else critical
  else g

/-- The shared body of the basic sampler at a fixed factor (no final
re-sort in this routine). -/
def basicAt (sel : Sel) (factor : ℚ) (df : List Event) : List Event :=
  (groupsApply (sampleGroupBasic sel factor) df.enum).map Prod.snd

/-- The basic sampler `apply_adaptive_sampling` (lines 495-549): spans of at
most 24 hours pass through; otherwise factor 0.5 up to one week, 0.25
beyond. -/
def apply_adaptive_sampling (sel : Sel) (df : List Event)
    (time_span_hours : ℚ) : List Event :=
  if time_span_hours ≤ 24 then df
  else if time_span_hours ≤ 168 then basicAt sel (1 / 2) df
  else basicAt sel (1 / 4) df

/-- The sampling dispatch of `generate_plot` (plot_movement_analysis.py lines
716-727): only frames above 5000 rows are sampled, with the enhanced sampler
for spans above 24 hours and the basic one otherwise. -/
def plotSampling (sel : Sel) (df : List Event) (time_span_hours : ℚ) : List Event :=
  if 5000 < df.length then
    if 24 < time_span_hours then apply_enhanced_adaptive_sampling sel df time_span_hours
    else apply_adaptive_sampling sel df time_span_hours
  else df

/-! ## Lane layout planner -/

/-- Derivation of a route's circuit order from event data
(`extract_circuit_sequence`, lines 551-574): per movement (group keys in
ascending order), sort that movement's rows by down time and take the circuit
column; keep the longest such list, first (smallest key) winning ties. -/
def extract_circuit_sequence (df : List Event) (route_id : String) : List String :=
  let route_data := df.filter (fun e => e.route == route_id)
  let movs := sortLe strLeB ((route_data.map (·.movement)).dedup)
  movs.foldl (fun acc m =>
    let ordered := (sortLe (fun a b => decide (a.down ≤ b.down))
      (route_data.filter (fun e => e.movement == m))).map (·.circuit)
    if acc.length < ordered.length then ordered else acc) []

/-- Accumulated state of the `calculate_y_positions` loop.  `y_positions` and
`circuit_route_map` are dictionary-assignment logs. -/
structure Layout where
  y_positions : List (String × ℚ)
  current_y : ℚ
  route_y_ranges : List (String × ℚ × ℚ)
  y_labels : List String
  y_ticks : List ℚ
  route_boundaries : List ℚ
  circuit_route_map : List (String × String)
  missing_route_data : List String
deriving Repr

/-- Lookup in the route-circuits registry (`route_circuits.get(route_id, [])`). -/
def routeCircuitsLookup (rc : List (String × List String)) (r : String) : List String :=
  match rc.find? (fun p => p.1 == r) with
  | some p => p.2
  | none => []

/-- One iteration of the `calculate_y_positions` route loop
(data_filter_movement_analysis.py lines 599-636): resolve the route's circuit
sequence (declared, else derived from data, else record the route as missing
and continue), add a boundary separator above a non-first route, place the
route's circuits one unit apart from the cursor, then advance the cursor past
the band plus a one-unit gap and record the route's y-range.  (The source's
`else: current_y += 1.0` arm is unreachable: the sequence is non-empty on
that path.) -/
def layoutStep (route_circuits : List (String × List String)) (df : List Event)
    (st : Layout) (route_id : String) : Layout :=
  let route_start_y := st.current_y
  let seq0 := routeCircuitsLookup route_circuits route_id
  let seq := if seq0.isEmpty then extract_circuit_sequence df route_id else seq0
  if seq.isEmpty then
    { st with missing_route_data := st.missing_route_data ++ [route_id] }
  else
    let bnds :=
      if 0 < st.current_y then st.route_boundaries ++ [st.current_y - 1/2]
      else st.route_boundaries
    let newPos := seq.enum.map (fun p =>
      (route_id ++ "_" ++ p.2, st.current_y + (p.1 : ℚ)))
    let newTicks := seq.enum.map (fun p => st.current_y + (p.1 : ℚ) + 7/20)
    let cy := st.current_y + (seq.length : ℚ) + 1
    { y_positions := st.y_positions ++ newPos,
      current_y := cy,
      route_y_ranges := st.route_y_ranges ++ [(route_id, route_start_y, cy - 1)],
      y_labels := st.y_labels ++ seq,
      y_ticks := st.y_ticks ++ newTicks,
      route_boundaries := bnds,
      circuit_route_map := st.circuit_route_map ++ seq.map (fun c => (c, route_id)),
      missing_route_data := st.missing_route_data }

/-- The lane layout planner `calculate_y_positions` (lines 576-643): fold the
route loop from an empty state; the total plot height adds a fixed top
padding of 3 to the final cursor. -/
def calculate_y_positions (unique_routes : List String)
    (route_circuits : List (String × List String)) (df : List Event) : Layout × ℚ :=
  let st := unique_routes.foldl (layoutStep route_circuits df)
    ⟨[], 0, [], [], [], [], [], []⟩
  (st, st.current_y + 3)

/-! ## Circuit label placement -/

/-- Label-index selection of `add_circuit_labels` (plot_movement_analysis.py
lines 547-565): an even stride of `max 1 (total / min total 40)` through all
lane tick positions, always including the first and last index; when that
yields fewer than 15 labels on more than 15 lanes, midpoints are added and
the list sorted.  (In Python `label_step // 2` can be zero there, making
`i % 0` raise; the branch is unreachable, and Lean's `i % 0 = i` stands in.) -/
def labelIndices (total : ℕ) : List ℕ :=
  let target_label_count := min total 40
  let label_step := max 1 (total / target_label_count)
  let base := (List.range total).filter (fun i =>
    i % label_step == 0 || i == 0 || i == total - 1)
  if base.length < 15 ∧ 15 < total then
    let mid := ((List.range total).filter (fun i =>
      i % (label_step / 2) == label_step / 4 && !(base.contains i))).take (15 - base.length)
    sortLe (fun a b => decide (a ≤ b)) (base ++ mid)
  else base

/-! ## Fixtures and claim-level predicates

Concrete uploads, frames and routes used by witnesses and counterexamples,
and the predicates the sampling and layout claims are stated with. -/

/-- A unified table: one table carrying route id, circuit id, both timestamps
and movement id per row. -/
def unifiedFile : CSVFile :=
  ⟨["Route_id", "Circuit_Name", "Down_timestamp", "Up_timestamp", "Movement_id"],
    [], [⟨"A", some 0, some 10, "M1", "R1", unitFrac⟩], 0⟩

/-- A concrete route chart upload (route 007 with chain A-B). -/
def chartW : CSVFile := ⟨["Route_id", "Route_circuit"], [⟨"007", "A-B"⟩], [], 0⟩

/-- A concrete circuit-data upload with well-formed, malformed and
non-positive-duration rows. -/
def trackW : CSVFile :=
  ⟨["Circuit_Name", "Down_timestamp", "Up_timestamp", "Movement_id"], [],
    [⟨"A", some 10, some 20, "M7", "", unitFrac⟩,
     ⟨"B", some 25, some 30, "M7", "", unitFrac⟩,
     ⟨"C", some 5, some 6, "M7", "", unitFrac⟩,
     ⟨"A", none, some 9, "M8", "", unitFrac⟩,
     ⟨"B", some 50, some 40, "M9", "", unitFrac⟩], 5⟩

/-- The empty upload used to witness the failure modes. -/
def emptyFile : CSVFile := ⟨[], [], [], 0⟩

/-- A route chart declaring the single route "007". -/
def chart007 (chain : String) : CSVFile :=
  ⟨["Route_id", "Route_circuit"], [⟨"007", chain⟩], [], 0⟩

/-- Erase the `Route_id` stamp of an event (the split branch stamps the
requested name onto rows of a track file that has no `Route_id` column). -/
def stripRouteTag (e : Event) : Event := { e with route := "" }

/-- A deterministic selection oracle (take the first `k` candidates), used to
instantiate sampling statements. -/
def takeSel : Sel := fun l k => l.take k

/-- A 30-row single-circuit single-movement frame. -/
def dfLong : List Event :=
  (List.range 30).map (fun i => ⟨"A", (i : Int), (i : Int) + 1, 1, unitFrac, unitFrac, "M1", "R1", 0⟩)

/-- A frame large enough for the `generate_plot` sampling threshold. -/
def bigDf : List Event :=
  List.replicate 5001 ⟨"A", 0, 1, 1, unitFrac, unitFrac, "M1", "R1", 0⟩

/-- The non-critical rows of a group in the enhanced sampler. -/
def remainingOf (w : ℕ) (g : List (ℕ × Event)) : List (ℕ × Event) :=
  g.filter (fun p => !(((criticalOf w g).map Prod.fst).contains p.1))

/-- The critical rows of a group in the basic sampler: first and last row of
each circuit. -/
def basicCriticalOf (g : List (ℕ × Event)) : List (ℕ × Event) :=
  ((g.map (fun p => p.2.circuit)).dedup).flatMap (fun c =>
    let cg := g.filter (fun p => p.2.circuit == c)
    cg.take 1 ++ cg.drop (cg.length - 1))

/-- The non-critical rows of a group in the basic sampler. -/
def basicRemainingOf (g : List (ℕ × Event)) : List (ℕ × Event) :=
  g.filter (fun p => !(((basicCriticalOf g).map Prod.fst).contains p.1))

/-- What claim C5 asserts of a sampler output `out` for input `df`: every
`(route, movement)` group of at most 20 rows is kept whole, and each larger
group keeps the first and last row of every one of its circuits. -/
def keepsGroups (df out : List Event) : Prop :=
  ∀ r m : String,
    let g := df.filter (fun e => e.movement == m && e.route == r)
    (g.length ≤ 20 → ∀ e ∈ g, e ∈ out) ∧
    (20 < g.length → ∀ c : String, ∀ x : Event,
      ((g.filter (fun e => e.circuit == c)).head? = some x → x ∈ out) ∧
      ((g.filter (fun e => e.circuit == c)).getLast? = some x → x ∈ out))

/-- Junk record used for out-of-range indexing. -/
def defaultRecord : MovementRecord := ⟨"", 0, 0, 0, 0, 0, 0⟩

/-- A two-event single-movement collection for the C6 witness. -/
def eventsW : List Event :=
  [⟨"A", 10, 20, 10, unitFrac, unitFrac, "M7", "R", 0⟩,
   ⟨"B", 25, 30, 5, unitFrac, unitFrac, "M7", "R", 1⟩]

/-- A route band `(route_id, route_start_y, route_end_y)` is well-placed with
respect to an assignment log: some non-empty circuit sequence spans it, the
band is exactly the sequence's length, and every circuit of the sequence was
assigned the unit-spaced position `route_start_y + i`. -/
def RangeGood (pos : List (String × ℚ)) (t : String × ℚ × ℚ) : Prop :=
  ∃ seq : List String, seq ≠ [] ∧ t.2.2 = t.2.1 + (seq.length : ℚ) ∧
    ∀ i, i < seq.length →
      (t.1 ++ "_" ++ seq.getD i "", t.2.1 + (i : ℚ)) ∈ pos

/-- Loop invariant of `calculate_y_positions`: bands are pairwise
collision-free, consecutive bands are separated by exactly the one-unit gap,
all bands lie strictly below the cursor, the last band ends one unit under
the cursor, and every band is well-placed. -/
def LayoutInv (st : Layout) : Prop :=
  List.Pairwise (fun a b : String × ℚ × ℚ => a.2.2 < b.2.1) st.route_y_ranges ∧
  List.Chain' (fun a b : String × ℚ × ℚ => a.2.2 + 1 = b.2.1) st.route_y_ranges ∧
  (∀ t ∈ st.route_y_ranges, t.2.2 < st.current_y) ∧
  (∀ t, st.route_y_ranges.getLast? = some t → t.2.2 + 1 = st.current_y) ∧
  (∀ t ∈ st.route_y_ranges, RangeGood st.y_positions t)

/-! ## General list lemmas -/

lemma enum_def {α : Type _} (l : List α) : l.enum = List.enumFrom 0 l := rfl

lemma snd_mem_of_mem_enumFrom {α : Type _} {l : List α} {n : ℕ} {p : ℕ × α}
    (h : p ∈ List.enumFrom n l) : p.2 ∈ l := by
  obtain ⟨_, _, h3⟩ := List.mem_enumFrom h
  rw [h3]
  exact List.getElem_mem _

lemma snd_mem_of_mem_enum {α : Type _} {l : List α} {p : ℕ × α}
    (h : p ∈ l.enum) : p.2 ∈ l :=
  snd_mem_of_mem_enumFrom (by rwa [enum_def] at h)

lemma enumFrom_filter_map_snd {α : Type _} (pred : α → Bool) :
    ∀ (l : List α) (n : ℕ),
      ((List.enumFrom n l).filter (fun p => pred p.2)).map Prod.snd = l.filter pred := by
  intro l
  induction l with
  | nil => intro n; rfl
  | cons a t ih =>
    intro n
    by_cases h : pred a
    · simp [List.enumFrom_cons, List.filter_cons, h, ih]
    · simp [List.enumFrom_cons, List.filter_cons, h, ih]

lemma enum_filter_map_snd {α : Type _} (pred : α → Bool) (l : List α) :
    (l.enum.filter (fun p => pred p.2)).map Prod.snd = l.filter pred := by
  rw [enum_def]; exact enumFrom_filter_map_snd pred l 0

lemma head?_mem_take {α : Type _} {l : List α} {x : α} {w : ℕ}
    (hw : 1 ≤ w) (h : l.head? = some x) : x ∈ l.take w := by
  cases l with
  | nil => simp at h
  | cons a t =>
    cases w with
    | zero => omega
    | succ w =>
      simp only [List.head?_cons, Option.some.injEq] at h
      simp [List.take_succ_cons, ← h]

lemma getLast?_mem_drop {α : Type _} :
    ∀ (l : List α) (k : ℕ) (x : α), k < l.length → l.getLast? = some x → x ∈ l.drop k := by
  intro l
  induction l with
  | nil => intro k x h; simp at h
  | cons a t ih =>
    intro k x hk hl
    cases k with
    | zero => simpa using List.mem_of_mem_getLast? hl
    | succ k =>
      have ht : t ≠ [] := by
        intro e; subst e; simp at hk
      have hl' : t.getLast? = some x := by
        cases t with
        | nil => exact absurd rfl ht
        | cons b u => rwa [List.getLast?_cons_cons] at hl
      simp only [List.drop_succ_cons]
      exact ih k x (by simpa using Nat.lt_of_succ_lt_succ hk) hl'

/-! ## Lemmas about the insertion sort -/

lemma mem_insertLe {α : Type _} {le : α → α → Bool} {x a : α} :
    ∀ {l : List α}, x ∈ insertLe le a l ↔ x = a ∨ x ∈ l := by
  intro l
  induction l with
  | nil => simp [insertLe]
  | cons b t ih =>
    by_cases h : le a b
    · simp [insertLe, h]
    · simp only [insertLe, if_neg h, List.mem_cons, ih]
      tauto

lemma mem_sortLe {α : Type _} {le : α → α → Bool} {x : α} :
    ∀ {l : List α}, x ∈ sortLe le l ↔ x ∈ l := by
  intro l
  induction l with
  | nil => simp [sortLe]
  | cons a t ih => simp [sortLe, mem_insertLe, ih]

lemma length_insertLe {α : Type _} (le : α → α → Bool) (a : α) :
    ∀ (l : List α), (insertLe le a l).length = l.length + 1 := by
  intro l
  induction l with
  | nil => rfl
  | cons b t ih =>
    by_cases h : le a b
    · simp [insertLe, h]
    · simp [insertLe, h, ih]

lemma length_sortLe {α : Type _} (le : α → α → Bool) :
    ∀ (l : List α), (sortLe le l).length = l.length := by
  intro l
  induction l with
  | nil => rfl
  | cons a t ih => simp [sortLe, length_insertLe, ih]

lemma pairwise_insertLe {α : Type _} {le : α → α → Bool}
    (htrans : ∀ a b c, le a b = true → le b c = true → le a c = true)
    (htot : ∀ a b, le a b || le b a) {a : α} :
    ∀ {l : List α}, l.Pairwise (fun x y => le x y = true) →
      (insertLe le a l).Pairwise (fun x y => le x y = true) := by
  intro l
  induction l with
  | nil => intro _; simp [insertLe]
  | cons b t ih =>
    intro h
    rw [List.pairwise_cons] at h
    obtain ⟨hb, ht⟩ := h
    by_cases hab : le a b
    · rw [insertLe, if_pos hab]
      refine List.Pairwise.cons ?_ (List.Pairwise.cons hb ht)
      intro y hy
      rcases List.mem_cons.mp hy with rfl | hy
      · exact hab
      · exact htrans a b y hab (hb y hy)
    · rw [insertLe, if_neg hab]
      refine List.Pairwise.cons ?_ (ih ht)
      intro y hy
      rcases mem_insertLe.mp hy with h' | hy
      · rw [h']
        have := htot a b
        rw [Bool.or_eq_true] at this
        rcases this with h | h
        · exact absurd h hab
        · exact h
      · exact hb y hy

lemma pairwise_sortLe {α : Type _} {le : α → α → Bool}
    (htrans : ∀ a b c, le a b = true → le b c = true → le a c = true)
    (htot : ∀ a b, le a b || le b a) :
    ∀ (l : List α), (sortLe le l).Pairwise (fun x y => le x y = true) := by
  intro l
  induction l with
  | nil => simp [sortLe]
  | cons a t ih => exact pairwise_insertLe htrans htot ih

/-! ## Classification facts (claims C1, C10) -/

lemma classifyCols_cases (columns : List String) :
    classifyCols columns = "route_chart" ∨ classifyCols columns = "circuit_data" ∨
      classifyCols columns = "unknown" := by
  unfold classifyCols
  split
  · exact Or.inl rfl
  · split
    · exact Or.inr (Or.inl rfl)
    · exact Or.inr (Or.inr rfl)

lemma identify_file_type_cases (f : CSVFile) :
    identify_file_type f = "route_chart" ∨ identify_file_type f = "circuit_data" ∨
      identify_file_type f = "unknown" :=
  classifyCols_cases (f.cols.map strLower)

lemma identify_file_type_ne_combined (f : CSVFile) :
    identify_file_type f ≠ "combined_data" := by
  rcases identify_file_type_cases f with h | h | h <;> rw [h] <;> decide

lemma find_combined_nil (files : List CSVFile) :
    find_files_by_type files "combined_data" = [] := by
  rw [find_files_by_type, List.filter_eq_nil_iff]
  intro f _
  simpa using identify_file_type_ne_combined f

lemma get_best_combined (files : List CSVFile) :
    get_best_file_of_type files "combined_data" = none := by
  unfold get_best_file_of_type
  rw [find_combined_nil]

lemma filter_isEmpty_false_iff (p : CSVFile → Bool) (files : List CSVFile) :
    (files.filter p).isEmpty = false ↔ ∃ f ∈ files, p f = true := by
  rw [← Bool.not_eq_true, List.isEmpty_iff]
  simp [List.filter_eq_nil_iff]

lemma has_required_uploads_iff (files : List CSVFile) :
    has_required_uploads files = true ↔
      (∃ f ∈ files, identify_file_type f = "route_chart") ∧
      (∃ f ∈ files, identify_file_type f = "circuit_data") := by
  rw [has_required_uploads, Bool.and_eq_true, Bool.not_eq_true', Bool.not_eq_true']
  simp only [find_files_by_type]
  rw [filter_isEmpty_false_iff, filter_isEmpty_false_iff]
  simp

/-- Claim C1 (counterexample): a table carrying route id, circuit id,
timestamps and movement id per row is classified `circuit_data`, not any
unified kind, and the correlator's first-priority lookup for a combined table
finds nothing even when only that table is uploaded. -/
theorem C1_unified_counterexample :
    identify_file_type unifiedFile = "circuit_data" ∧
    identify_file_type unifiedFile ≠ "unified" ∧
    identify_file_type unifiedFile ≠ "combined_data" ∧
    get_best_file_of_type [unifiedFile] "combined_data" = none :=
  ⟨by decide, by decide, by decide, get_best_combined [unifiedFile]⟩

/-- Claim C1 (amended): classification returns exactly one of
route_chart / circuit_data / unknown — never a unified kind — a unified
table is labelled `circuit_data`, and the correlator's first-priority
selection of a combined table never fires. -/
theorem C1_classification_contract :
    (∀ f : CSVFile, identify_file_type f = "route_chart" ∨
      identify_file_type f = "circuit_data" ∨ identify_file_type f = "unknown") ∧
    (∀ files : List CSVFile, get_best_file_of_type files "combined_data" = none) ∧
    identify_file_type unifiedFile = "circuit_data" :=
  ⟨identify_file_type_cases, get_best_combined, by decide⟩

/-- Claim C10: without both a route-chart-classified and a
circuit-data-classified upload, the correlator returns the empty collection —
even when a single unified table is present. -/
theorem C10_upload_guard :
    ∀ (files : List CSVFile) (name : String) (w : Option (Int × Int)),
      ¬ ((∃ f ∈ files, identify_file_type f = "route_chart") ∧
          (∃ f ∈ files, identify_file_type f = "circuit_data")) →
      get_circuit_data files name w = [] := by
  intro files name w h
  have hreq : has_required_uploads files = false := by
    rw [← Bool.not_eq_true, has_required_uploads_iff]
    exact h
  unfold get_circuit_data
  rw [hreq]
  rfl

/-- Witness for C10: a unified-only upload yields an empty correlation. -/
theorem C10_upload_guard_witness :
    get_circuit_data [unifiedFile] "R1" none = [] :=
  C10_upload_guard [unifiedFile] "R1" none (by decide)

/-! ## Row cleanliness (claim C2) -/

lemma splitTrackEvents_clean (cf : CSVFile) (w : Option (Int × Int)) :
    ∀ e ∈ splitTrackEvents cf w, 0 < e.duration ∧ e.duration = e.up - e.down := by
  intro e he
  simp only [splitTrackEvents] at he
  rw [List.mem_filter] at he
  obtain ⟨he, _⟩ := he
  rw [List.mem_filter] at he
  obtain ⟨he, hpos⟩ := he
  rw [List.mem_map] at he
  obtain ⟨p, _, rfl⟩ := he
  exact ⟨by simpa using hpos, rfl⟩

lemma splitPipeline_clean (rfile cf : CSVFile) (name : String) (w : Option (Int × Int)) :
    ∀ e ∈ splitPipeline rfile cf name w, 0 < e.duration ∧ e.duration = e.up - e.down := by
  intro e he
  simp only [splitPipeline] at he
  split at he
  · split at he
    · simp at he
    · split at he
      · simp at he
      · rw [List.mem_map] at he
        obtain ⟨e1, he1, rfl⟩ := he
        rw [List.mem_map] at he1
        obtain ⟨e2, he2, rfl⟩ := he1
        rw [mem_sortLe] at he2
        rw [List.mem_map] at he2
        obtain ⟨e3, he3, rfl⟩ := he2
        rw [List.mem_filter] at he3
        exact splitTrackEvents_clean cf w e3 he3.1
  · simp at he

lemma cumcountOrders_fields {l : List Event} {e : Event} (h : e ∈ cumcountOrders l) :
    ∃ x ∈ l, e.duration = x.duration ∧ e.up = x.up ∧ e.down = x.down := by
  simp only [cumcountOrders] at h
  rw [List.mem_map] at h
  obtain ⟨p, hp, rfl⟩ := h
  exact ⟨p.2, snd_mem_of_mem_enum hp, rfl, rfl, rfl⟩

lemma orderByIdx_fields {l : List Event} {e : Event} (h : e ∈ orderByIdx l) :
    ∃ x ∈ l, e.duration = x.duration ∧ e.up = x.up ∧ e.down = x.down := by
  simp only [orderByIdx] at h
  rw [List.mem_map] at h
  obtain ⟨p, hp, rfl⟩ := h
  exact ⟨p.2, snd_mem_of_mem_enum hp, rfl, rfl, rfl⟩

lemma combinedPipeline_clean (f : CSVFile) (name : String) (w : Option (Int × Int)) :
    ∀ e ∈ combinedPipeline f name w, 0 < e.duration ∧ e.duration = e.up - e.down := by
  intro e he
  simp only [combinedPipeline] at he
  have evsClean : ∀ (l : List (TrackRow × Int × Int)) (x : Event),
      x ∈ (l.map (fun p =>
        ({ circuit := p.1.circuit, down := p.2.1, up := p.2.2,
           duration := p.2.2 - p.2.1, distance := unitFrac,
           avg_speed := avgSpeed unitFrac (p.2.2 - p.2.1),
           movement := p.1.movement, route := p.1.route, pos := 0 } : Event))).filter
        (fun e => 0 < e.duration) →
      0 < x.duration ∧ x.duration = x.up - x.down := by
    intro l x hx
    rw [List.mem_filter] at hx
    obtain ⟨hx, hpos⟩ := hx
    rw [List.mem_map] at hx
    obtain ⟨p, _, rfl⟩ := hx
    exact ⟨by simpa using hpos, rfl⟩
  split at he
  · split at he
    · simp at he
    · split at he
      · obtain ⟨x, hx, h1, h2, h3⟩ := cumcountOrders_fields he
        rw [mem_sortLe] at hx
        have := evsClean _ x hx
        rw [h1, h2, h3]
        exact this
      · obtain ⟨x, hx, h1, h2, h3⟩ := orderByIdx_fields he
        have := evsClean _ x hx
        rw [h1, h2, h3]
        exact this
  · simp at he

/-- The correlator either returns nothing or delegates to the split branch
(the combined branch is unreachable: no file ever classifies as
combined data). -/
lemma get_circuit_data_cases (files : List CSVFile) (name : String)
    (w : Option (Int × Int)) :
    get_circuit_data files name w = [] ∨
    ∃ rfile cfile, get_circuit_data files name w = splitPipeline rfile cfile (strTrim name) w := by
  unfold get_circuit_data
  rw [get_best_combined]
  by_cases hreq : has_required_uploads files
  · simp only [hreq, Bool.not_true, Bool.false_eq_true, if_false]
    cases get_best_file_of_type files "route_chart" with
    | none => exact Or.inl rfl
    | some rf =>
      cases get_best_file_of_type files "circuit_data" with
      | none => exact Or.inl rfl
      | some cfl => exact Or.inr ⟨rf, cfl, rfl⟩
  · rw [Bool.not_eq_true] at hreq
    simp [hreq]

/-- Claim C2: every event returned by the correlator — and by either
ingestion branch on its own — satisfies `down ≤ up` and a strictly positive
duration; rows with unparsable timestamps or non-positive duration never
surface. -/
theorem C2_event_invariants :
    ∀ (files : List CSVFile) (name : String) (w : Option (Int × Int)) (f rfile cf : CSVFile),
      (∀ e ∈ get_circuit_data files name w, e.down ≤ e.up ∧ 0 < e.duration) ∧
      (∀ e ∈ combinedPipeline f name w, e.down ≤ e.up ∧ 0 < e.duration) ∧
      (∀ e ∈ splitPipeline rfile cf name w, e.down ≤ e.up ∧ 0 < e.duration) := by
  intro files name w f rfile cf
  have key : ∀ e : Event, (0 < e.duration ∧ e.duration = e.up - e.down) →
      e.down ≤ e.up ∧ 0 < e.duration := by
    rintro e ⟨h1, h2⟩
    constructor
    · omega
    · exact h1
  refine ⟨?_, ?_, ?_⟩
  · intro e he
    rcases get_circuit_data_cases files name w with h | ⟨rf, cfl, h⟩
    · rw [h] at he
      simp at he
    · rw [h] at he
      exact key e (splitPipeline_clean _ _ _ _ e he)
  · intro e he
    exact key e (combinedPipeline_clean f name w e he)
  · intro e he
    exact key e (splitPipeline_clean rfile cf name w e he)

/-- Witness for C2 at a concrete upload pair and event. -/
theorem C2_event_invariants_witness :
    (⟨"A", 10, 20, 10, unitFrac, ⟨18, 50⟩, "M7", "007", 0⟩ : Event).down ≤
        (⟨"A", 10, 20, 10, unitFrac, ⟨18, 50⟩, "M7", "007", 0⟩ : Event).up ∧
      0 < (⟨"A", 10, 20, 10, unitFrac, ⟨18, 50⟩, "M7", "007", 0⟩ : Event).duration :=
  (C2_event_invariants [chartW, trackW] "007" none chartW chartW trackW).1
    ⟨"A", 10, 20, 10, unitFrac, ⟨18, 50⟩, "M7", "007", 0⟩ (by decide)

/-! ## Failure-mode degradation (claim C8) -/

/-- Claim C8: no failure mode raises — the embedding is total — and each one
yields an empty collection: a missing required upload, a route id matching no
tier of the route chart, a time window (or timestamp/duration cleaning)
removing every track row, an empty two-tier route filter in the combined
branch, and an empty correlation short-circuits the aggregator. -/
theorem C8_failure_degradation :
    ∀ (files : List CSVFile) (rfile cf f : CSVFile) (name : String)
      (w : Option (Int × Int)),
      (has_required_uploads files = false →
        get_circuit_data files name w = [] ∧ calculate_movement_times files name w = []) ∧
      (matchRoute (rfile.routeRows.map (fun r => { r with route_id := strTrim r.route_id }))
          name = [] → splitPipeline rfile cf name w = []) ∧
      (splitTrackEvents cf w = [] → splitPipeline rfile cf name w = []) ∧
      (combinedFiltered f name = [] → combinedPipeline f name w = []) ∧
      (get_circuit_data files name w = [] → calculate_movement_times files name w = []) := by
  intro files rfile cf f name w
  have hagg : ∀ h : get_circuit_data files name w = [],
      calculate_movement_times files name w = [] := by
    intro h
    unfold calculate_movement_times
    rw [h]
    rfl
  refine ⟨?_, ?_, ?_, ?_, ?_⟩
  · intro h
    have hg : get_circuit_data files name w = [] := by
      unfold get_circuit_data
      rw [h]
      rfl
    exact ⟨hg, hagg hg⟩
  · intro h
    simp only [splitPipeline]
    split
    · rw [h]
    · rfl
  · intro h
    simp only [splitPipeline]
    split
    · rw [h]
      split
      · rfl
      · simp
    · rfl
  · intro h
    simp only [combinedPipeline]
    split
    · rw [h]
      rfl
    · rfl
  · exact hagg

/-- Witness for C8 at concrete degenerate inputs. -/
theorem C8_failure_degradation_witness :
    (get_circuit_data [] "X" none = [] ∧ calculate_movement_times [] "X" none = []) ∧
      splitPipeline emptyFile emptyFile "X" none = [] ∧
      combinedPipeline emptyFile "X" none = [] :=
  ⟨(C8_failure_degradation [] emptyFile emptyFile emptyFile "X" none).1 (by decide),
    (C8_failure_degradation [] emptyFile emptyFile emptyFile "X" none).2.1 (by decide),
    (C8_failure_degradation [] emptyFile emptyFile emptyFile "X" none).2.2.2.1 (by decide)⟩

/-! ## Route-identifier matching tiers (claim C3) -/

lemma bnot_isEmpty_true {α : Type _} {l : List α} (h : l ≠ []) : (!l.isEmpty) = true := by
  rw [Bool.not_eq_true', ← Bool.not_eq_true, List.isEmpty_iff]
  exact h

lemma isEmpty_true_of_eq {α : Type _} {l : List α} (h : l = []) : l.isEmpty = true :=
  List.isEmpty_iff.mpr h

lemma identify_chart007 (chain : String) :
    identify_file_type (chart007 chain) = "route_chart" := rfl

lemma matchRoute_007_of_7 (chain : String) :
    matchRoute ((chart007 chain).routeRows.map
      (fun r => { r with route_id := strTrim r.route_id })) "7" = [⟨"007", chain⟩] := rfl

lemma matchRoute_007_of_007 (chain : String) :
    matchRoute ((chart007 chain).routeRows.map
      (fun r => { r with route_id := strTrim r.route_id })) "007" = [⟨"007", chain⟩] := rfl

lemma splitPipeline_007_vs_7 (chain : String) (cf : CSVFile) (w : Option (Int × Int)) :
    ((splitPipeline (chart007 chain) cf "7" w).map stripRouteTag =
      (splitPipeline (chart007 chain) cf "007" w).map stripRouteTag) ∧
    ("Route_id" ∈ cf.cols →
      splitPipeline (chart007 chain) cf "7" w = splitPipeline (chart007 chain) cf "007" w) := by
  have hcols : "Route_id" ∈ (chart007 chain).cols := by simp [chart007]
  simp only [splitPipeline, if_pos hcols, matchRoute_007_of_7, matchRoute_007_of_007]
  constructor
  · split
    · rfl
    · rw [List.map_map, List.map_map, List.map_map, List.map_map]
      apply List.map_congr_left
      intro a _
      cases a
      rfl
  · intro hRid
    split
    · rfl
    · apply congrArg
      apply List.map_congr_left
      intro a _
      cases a
      simp [if_pos hRid]

lemma gcd_chart007 (chain : String) (cf : CSVFile)
    (hcf : identify_file_type cf = "circuit_data") (n : String) (w : Option (Int × Int)) :
    get_circuit_data [chart007 chain, cf] n w = splitPipeline (chart007 chain) cf (strTrim n) w := by
  have hrc : find_files_by_type [chart007 chain, cf] "route_chart" = [chart007 chain] := by
    simp [find_files_by_type, List.filter, identify_chart007, hcf]
  have hcd : find_files_by_type [chart007 chain, cf] "circuit_data" = [cf] := by
    simp [find_files_by_type, List.filter, identify_chart007, hcf]
  have hreq : has_required_uploads [chart007 chain, cf] = true := by
    simp [has_required_uploads, hrc, hcd]
  unfold get_circuit_data
  rw [hreq, get_best_combined]
  unfold get_best_file_of_type
  rw [hrc, hcd]
  rfl

/-- Claim C3: route-identifier matching tries the tiers in order with first
match winning — exact, case-insensitive, then for purely numeric requests
leading-zero-stripped equality and then numeric-value equality — and
requesting "7" against a stored route id "007" returns the same events as
requesting "007" (identically up to the `Route_id` stamp the split branch
writes onto track files lacking that column, and identically outright when
the track file carries a `Route_id` column). -/
theorem C3_identifier_tiers :
    ∀ (rows : List RouteRow) (n chain : String) (cf : CSVFile) (w : Option (Int × Int)),
      (let exact := rows.filter (fun r => r.route_id == n)
       let ci := rows.filter (fun r => strUpper r.route_id == strUpper n)
       let lz := rows.filter (fun r => lstripZeros r.route_id == lstripZeros n)
       let nm := rows.filter (fun r => toNumericVal? r.route_id == some (digitsVal n : Int))
       (exact ≠ [] → matchRoute rows n = exact) ∧
       (exact = [] → ci ≠ [] → matchRoute rows n = ci) ∧
       (exact = [] → ci = [] → pyIsDigit n = true → lstripZeros n ≠ "" → lz ≠ [] →
         matchRoute rows n = lz) ∧
       (exact = [] → ci = [] → pyIsDigit n = true → lstripZeros n ≠ "" → lz = [] →
         matchRoute rows n = nm) ∧
       (exact = [] → ci = [] → pyIsDigit n = true → lstripZeros n = "" →
         matchRoute rows n = nm) ∧
       (exact = [] → ci = [] → pyIsDigit n = false → matchRoute rows n = [])) ∧
      (identify_file_type cf = "circuit_data" →
        ((get_circuit_data [chart007 chain, cf] "7" w).map stripRouteTag =
          (get_circuit_data [chart007 chain, cf] "007" w).map stripRouteTag) ∧
        ("Route_id" ∈ cf.cols →
          get_circuit_data [chart007 chain, cf] "7" w =
            get_circuit_data [chart007 chain, cf] "007" w)) := by
  intro rows n chain cf w
  constructor
  · refine ⟨?_, ?_, ?_, ?_, ?_, ?_⟩
    · intro h1
      simp [matchRoute, bnot_isEmpty_true h1]
    · intro h1 h2
      simp [matchRoute, isEmpty_true_of_eq h1, bnot_isEmpty_true h2]
    · intro h1 h2 h3 h4 h5
      have h4' : (lstripZeros n).isEmpty = false := by
        rw [← Bool.not_eq_true, String.isEmpty_iff]
        exact h4
      simp [matchRoute, isEmpty_true_of_eq h1, isEmpty_true_of_eq h2, h3, h4',
        bnot_isEmpty_true h5]
    · intro h1 h2 h3 h4 h5
      have h4' : (lstripZeros n).isEmpty = false := by
        rw [← Bool.not_eq_true, String.isEmpty_iff]
        exact h4
      simp [matchRoute, isEmpty_true_of_eq h1, isEmpty_true_of_eq h2, h3, h4',
        isEmpty_true_of_eq h5]
    · intro h1 h2 h3 h4
      have h4' : (lstripZeros n).isEmpty = true := (String.isEmpty_iff _).mpr h4
      simp [matchRoute, isEmpty_true_of_eq h1, isEmpty_true_of_eq h2, h3, h4']
    · intro h1 h2 h3
      simp [matchRoute, isEmpty_true_of_eq h1, isEmpty_true_of_eq h2, h3]
  · intro hcf
    rw [gcd_chart007 chain cf hcf "7" w, gcd_chart007 chain cf hcf "007" w]
    have t7 : strTrim "7" = "7" := rfl
    have t007 : strTrim "007" = "007" := rfl
    rw [t7, t007]
    exact splitPipeline_007_vs_7 chain cf w

/-- Witness for C3: the exact tier at a concrete chart, and the "007"/"7"
scenario at a concrete upload pair. -/
theorem C3_identifier_tiers_witness :
    matchRoute [⟨"007", "A-B"⟩] "007" =
      [(⟨"007", "A-B"⟩ : RouteRow)].filter (fun r => r.route_id == "007") ∧
    (get_circuit_data [chart007 "A-B", trackW] "7" none).map stripRouteTag =
      (get_circuit_data [chart007 "A-B", trackW] "007" none).map stripRouteTag :=
  ⟨(C3_identifier_tiers [⟨"007", "A-B"⟩] "007" "A-B" trackW none).1.1 (by decide),
    ((C3_identifier_tiers [⟨"007", "A-B"⟩] "007" "A-B" trackW none).2 (by decide)).1⟩

/-! ## Adaptive-sampling tiers (claim C4) -/

/-- Claim C4 (counterexample): at a 30-hour span — at most 168 hours, so the
claim demands ~30% retention of the 24 non-critical points of this 30-row
group — the enhanced sampler performs no reduction at all and returns the
frame unchanged (its no-reduction threshold is 48 hours, not 24). -/
theorem C4_tier_counterexample :
    apply_enhanced_adaptive_sampling takeSel dfLong 30 = dfLong ∧
    (24 : ℚ) < 30 ∧ (30 : ℚ) ≤ 168 ∧ 20 < dfLong.length := by
  refine ⟨?_, by norm_num, by norm_num, by decide⟩
  unfold apply_enhanced_adaptive_sampling
  rw [if_pos (by norm_num : (30 : ℚ) ≤ 48)]

/-- Claim C4 (amended): deterministic tiering by time span with a no-reduction
threshold of 48 hours — spans of at most 48 hours (and, at the `generate_plot`
call site, any frame of at most 5000 rows) are returned with no reduction;
spans over 48 and at most 168 hours sample non-critical points at rate 0.3
with critical window 3; over 168 and at most 720 hours at rate 0.15 with
window 2; above 720 hours at rate 0.05 with window 1. -/
theorem C4_sampling_tiers :
    ∀ (sel : Sel) (df : List Event) (h : ℚ),
      (h ≤ 48 → apply_enhanced_adaptive_sampling sel df h = df) ∧
      (48 < h → h ≤ 168 →
        apply_enhanced_adaptive_sampling sel df h = enhancedAt sel (3 / 10) 3 df) ∧
      (168 < h → h ≤ 720 →
        apply_enhanced_adaptive_sampling sel df h = enhancedAt sel (15 / 100) 2 df) ∧
      (720 < h → apply_enhanced_adaptive_sampling sel df h = enhancedAt sel (5 / 100) 1 df) ∧
      (df.length ≤ 5000 → plotSampling sel df h = df) ∧
      (5000 < df.length → h ≤ 48 → plotSampling sel df h = df) ∧
      (5000 < df.length → 48 < h →
        plotSampling sel df h = apply_enhanced_adaptive_sampling sel df h) := by
  intro sel df h
  have e1 : ∀ _ : h ≤ 48, apply_enhanced_adaptive_sampling sel df h = df := by
    intro hh
    unfold apply_enhanced_adaptive_sampling
    rw [if_pos hh]
  refine ⟨e1, ?_, ?_, ?_, ?_, ?_, ?_⟩
  · intro h1 h2
    unfold apply_enhanced_adaptive_sampling
    rw [if_neg (not_le.mpr h1), if_pos h2]
  · intro h1 h2
    unfold apply_enhanced_adaptive_sampling
    rw [if_neg (not_le.mpr (lt_trans (by norm_num) h1)), if_neg (not_le.mpr h1), if_pos h2]
  · intro h1
    unfold apply_enhanced_adaptive_sampling
    rw [if_neg (not_le.mpr (lt_trans (by norm_num) h1)),
      if_neg (not_le.mpr (lt_trans (by norm_num) h1)), if_neg (not_le.mpr h1)]
  · intro hlen
    unfold plotSampling
    rw [if_neg (not_lt.mpr hlen)]
  · intro hlen hh
    unfold plotSampling
    rw [if_pos hlen]
    by_cases h24 : 24 < h
    · rw [if_pos h24]
      exact e1 hh
    · rw [if_neg h24]
      unfold apply_adaptive_sampling
      rw [if_pos (not_lt.mp h24)]
  · intro hlen hh
    unfold plotSampling
    rw [if_pos hlen, if_pos (lt_trans (by norm_num) hh)]

lemma bigDf_length : bigDf.length = 5001 := List.length_replicate 5001 _

/-- Witness for C4 at concrete spans and frames. -/
theorem C4_sampling_tiers_witness :
    apply_enhanced_adaptive_sampling takeSel dfLong 24 = dfLong ∧
    apply_enhanced_adaptive_sampling takeSel dfLong 100 = enhancedAt takeSel (3 / 10) 3 dfLong ∧
    apply_enhanced_adaptive_sampling takeSel dfLong 300 = enhancedAt takeSel (15 / 100) 2 dfLong ∧
    apply_enhanced_adaptive_sampling takeSel dfLong 1000 = enhancedAt takeSel (5 / 100) 1 dfLong ∧
    plotSampling takeSel dfLong 100 = dfLong ∧
    plotSampling takeSel bigDf 30 = bigDf ∧
    plotSampling takeSel bigDf 100 = apply_enhanced_adaptive_sampling takeSel bigDf 100 :=
  ⟨(C4_sampling_tiers takeSel dfLong 24).1 (by norm_num),
    (C4_sampling_tiers takeSel dfLong 100).2.1 (by norm_num) (by norm_num),
    (C4_sampling_tiers takeSel dfLong 300).2.2.1 (by norm_num) (by norm_num),
    (C4_sampling_tiers takeSel dfLong 1000).2.2.2.1 (by norm_num),
    (C4_sampling_tiers takeSel dfLong 100).2.2.2.2.1 (by decide),
    (C4_sampling_tiers takeSel bigDf 30).2.2.2.2.2.1
      (lt_of_lt_of_eq (by norm_num : (5000 : ℕ) < 5001) bigDf_length.symm) (by norm_num),
    (C4_sampling_tiers takeSel bigDf 100).2.2.2.2.2.2
      (lt_of_lt_of_eq (by norm_num : (5000 : ℕ) < 5001) bigDf_length.symm) (by norm_num)⟩

/-! ## Sampling preserves small groups and per-circuit endpoints (claim C5) -/

lemma sampleGroupEnhanced_of_small (sel : Sel) (rate : ℚ) (w : ℕ)
    {g : List (ℕ × Event)} (h : g.length ≤ 20) :
    sampleGroupEnhanced sel rate w g = g := by
  unfold sampleGroupEnhanced
  rw [if_pos h]

lemma sampleGroupEnhanced_of_large (sel : Sel) (rate : ℚ) (w : ℕ)
    {g : List (ℕ × Event)} (h : ¬ g.length ≤ 20) :
    sampleGroupEnhanced sel rate w g =
      (if 0 < (remainingOf w g).length
       then criticalOf w g ++
         sel (remainingOf w g) (max 1 (⌊((remainingOf w g).length : ℚ) * rate⌋.toNat))
       else criticalOf w g) := by
  unfold sampleGroupEnhanced
  rw [if_neg h]
  rfl

lemma sampleGroupBasic_of_small (sel : Sel) (factor : ℚ)
    {g : List (ℕ × Event)} (h : ¬ 20 < g.length) :
    sampleGroupBasic sel factor g = g := by
  unfold sampleGroupBasic
  rw [if_neg h]

lemma sampleGroupBasic_of_large (sel : Sel) (factor : ℚ)
    {g : List (ℕ × Event)} (h : 20 < g.length) :
    sampleGroupBasic sel factor g =
      (if 0 < (basicRemainingOf g).length
       then basicCriticalOf g ++
         sel (basicRemainingOf g)
           (min (basicRemainingOf g).length
             (max 10 (⌊((basicRemainingOf g).length : ℚ) * factor⌋.toNat)))
       else basicCriticalOf g) := by
  unfold sampleGroupBasic
  rw [if_pos h]
  rfl

lemma mem_sampleGroupEnhanced_of_critical (sel : Sel) (rate : ℚ) (w : ℕ)
    {g : List (ℕ × Event)} {p : ℕ × Event} (h : ¬ g.length ≤ 20)
    (hp : p ∈ criticalOf w g) : p ∈ sampleGroupEnhanced sel rate w g := by
  rw [sampleGroupEnhanced_of_large sel rate w h]
  split
  · exact List.mem_append_left _ hp
  · exact hp

lemma mem_sampleGroupBasic_of_critical (sel : Sel) (factor : ℚ)
    {g : List (ℕ × Event)} {p : ℕ × Event} (h : 20 < g.length)
    (hp : p ∈ basicCriticalOf g) : p ∈ sampleGroupBasic sel factor g := by
  rw [sampleGroupBasic_of_large sel factor h]
  split
  · exact List.mem_append_left _ hp
  · exact hp

lemma mem_groupsApply {proc : List (ℕ × Event) → List (ℕ × Event)}
    {idf : List (ℕ × Event)} {r m : String} {p : ℕ × Event}
    (hne : idf.filter (fun q => q.2.movement == m && q.2.route == r) ≠ [])
    (hp : p ∈ proc (idf.filter (fun q => q.2.movement == m && q.2.route == r))) :
    p ∈ groupsApply proc idf := by
  obtain ⟨q, hq⟩ := List.exists_mem_of_ne_nil _ hne
  rw [List.mem_filter] at hq
  obtain ⟨hqmem, hqpred⟩ := hq
  rw [Bool.and_eq_true, beq_iff_eq, beq_iff_eq] at hqpred
  obtain ⟨hqm, hqr⟩ := hqpred
  simp only [groupsApply]
  rw [List.mem_flatMap]
  refine ⟨r, ?_, ?_⟩
  · rw [List.mem_dedup, List.mem_map]
    exact ⟨q, hqmem, hqr⟩
  · rw [List.mem_flatMap]
    refine ⟨m, ?_, ?_⟩
    · rw [List.mem_dedup, List.mem_map]
      refine ⟨q, ?_, hqm⟩
      rw [List.mem_filter]
      exact ⟨hqmem, by simp [hqr]⟩
    · rw [List.filter_filter]
      exact hp

lemma criticalOf_mem_head {w : ℕ} (hw : 1 ≤ w) {g : List (ℕ × Event)} {c : String}
    {p : ℕ × Event} (hh : (g.filter (fun q => q.2.circuit == c)).head? = some p) :
    p ∈ criticalOf w g := by
  have hpcg : p ∈ g.filter (fun q => q.2.circuit == c) :=
    List.mem_of_mem_head? (Option.mem_def.mpr hh)
  have hcirc : p.2.circuit = c := by
    have := (List.mem_filter.mp hpcg).2
    simpa using this
  simp only [criticalOf]
  rw [List.mem_flatMap]
  refine ⟨c, ?_, ?_⟩
  · rw [List.mem_dedup, List.mem_map]
    exact ⟨p, List.mem_of_mem_filter hpcg, hcirc⟩
  · show p ∈
      (if (g.filter (fun q => q.2.circuit == c)).length ≤ w * 2
       then g.filter (fun q => q.2.circuit == c)
       else (g.filter (fun q => q.2.circuit == c)).take w ++
         (g.filter (fun q => q.2.circuit == c)).drop
           ((g.filter (fun q => q.2.circuit == c)).length - w))
    split
    · exact hpcg
    · exact List.mem_append_left _ (head?_mem_take hw hh)

lemma criticalOf_mem_last {w : ℕ} (hw : 1 ≤ w) {g : List (ℕ × Event)} {c : String}
    {p : ℕ × Event} (hh : (g.filter (fun q => q.2.circuit == c)).getLast? = some p) :
    p ∈ criticalOf w g := by
  have hpcg : p ∈ g.filter (fun q => q.2.circuit == c) :=
    List.mem_of_mem_getLast? (Option.mem_def.mpr hh)
  have hne : g.filter (fun q => q.2.circuit == c) ≠ [] := List.ne_nil_of_mem hpcg
  have hcirc : p.2.circuit = c := by
    have := (List.mem_filter.mp hpcg).2
    simpa using this
  simp only [criticalOf]
  rw [List.mem_flatMap]
  refine ⟨c, ?_, ?_⟩
  · rw [List.mem_dedup, List.mem_map]
    exact ⟨p, List.mem_of_mem_filter hpcg, hcirc⟩
  · show p ∈
      (if (g.filter (fun q => q.2.circuit == c)).length ≤ w * 2
       then g.filter (fun q => q.2.circuit == c)
       else (g.filter (fun q => q.2.circuit == c)).take w ++
         (g.filter (fun q => q.2.circuit == c)).drop
           ((g.filter (fun q => q.2.circuit == c)).length - w))
    split
    · exact hpcg
    · refine List.mem_append_right _ (getLast?_mem_drop _ _ _ ?_ hh)
      have hpos : 0 < (g.filter (fun q => q.2.circuit == c)).length :=
        List.length_pos.mpr hne
      omega

lemma basicCriticalOf_mem_head {g : List (ℕ × Event)} {c : String} {p : ℕ × Event}
    (hh : (g.filter (fun q => q.2.circuit == c)).head? = some p) :
    p ∈ basicCriticalOf g := by
  have hpcg : p ∈ g.filter (fun q => q.2.circuit == c) :=
    List.mem_of_mem_head? (Option.mem_def.mpr hh)
  have hcirc : p.2.circuit = c := by
    have := (List.mem_filter.mp hpcg).2
    simpa using this
  simp only [basicCriticalOf]
  rw [List.mem_flatMap]
  refine ⟨c, ?_, ?_⟩
  · rw [List.mem_dedup, List.mem_map]
    exact ⟨p, List.mem_of_mem_filter hpcg, hcirc⟩
  · exact List.mem_append_left _ (head?_mem_take (le_refl 1) hh)

lemma basicCriticalOf_mem_last {g : List (ℕ × Event)} {c : String} {p : ℕ × Event}
    (hh : (g.filter (fun q => q.2.circuit == c)).getLast? = some p) :
    p ∈ basicCriticalOf g := by
  have hpcg : p ∈ g.filter (fun q => q.2.circuit == c) :=
    List.mem_of_mem_getLast? (Option.mem_def.mpr hh)
  have hne : g.filter (fun q => q.2.circuit == c) ≠ [] := List.ne_nil_of_mem hpcg
  have hcirc : p.2.circuit = c := by
    have := (List.mem_filter.mp hpcg).2
    simpa using this
  simp only [basicCriticalOf]
  rw [List.mem_flatMap]
  refine ⟨c, ?_, ?_⟩
  · rw [List.mem_dedup, List.mem_map]
    exact ⟨p, List.mem_of_mem_filter hpcg, hcirc⟩
  · refine List.mem_append_right _ (getLast?_mem_drop _ _ _ ?_ hh)
    have hpos : 0 < (g.filter (fun q => q.2.circuit == c)).length :=
      List.length_pos.mpr hne
    omega

lemma keepsGroups_self (df : List Event) : keepsGroups df df := by
  intro r m
  constructor
  · intro _ e he
    exact List.mem_of_mem_filter he
  · intro _ c x
    constructor
    · intro hx
      exact List.mem_of_mem_filter
        (List.mem_of_mem_filter (List.mem_of_mem_head? (Option.mem_def.mpr hx)))
    · intro hx
      exact List.mem_of_mem_filter
        (List.mem_of_mem_filter (List.mem_of_mem_getLast? (Option.mem_def.mpr hx)))

lemma keeps_enhancedAt {sel : Sel} (_hsel : ∀ l k p, p ∈ sel l k → p ∈ l)
    (rate : ℚ) {w : ℕ} (hw : 1 ≤ w) (df : List Event) :
    keepsGroups df (enhancedAt sel rate w df) := by
  intro r m
  have hgv : df.filter (fun e => e.movement == m && e.route == r) =
      (df.enum.filter (fun q => q.2.movement == m && q.2.route == r)).map Prod.snd :=
    (enum_filter_map_snd (fun e => e.movement == m && e.route == r) df).symm
  constructor
  · intro hlen e he
    rw [hgv] at he
    rw [hgv, List.length_map] at hlen
    rw [List.mem_map] at he
    obtain ⟨p, hpg, rfl⟩ := he
    have h1 : p ∈ sampleGroupEnhanced sel rate w
        (df.enum.filter (fun q => q.2.movement == m && q.2.route == r)) := by
      rw [sampleGroupEnhanced_of_small sel rate w hlen]
      exact hpg
    have h2 : p ∈ groupsApply (sampleGroupEnhanced sel rate w) df.enum :=
      mem_groupsApply (List.ne_nil_of_mem hpg) h1
    unfold enhancedAt
    rw [mem_sortLe, List.mem_map]
    exact ⟨p, h2, rfl⟩
  · intro hlen c x
    rw [hgv, List.length_map] at hlen
    have hcg : (df.filter (fun e => e.movement == m && e.route == r)).filter
        (fun e => e.circuit == c) =
        ((df.enum.filter (fun q => q.2.movement == m && q.2.route == r)).filter
          (fun q => q.2.circuit == c)).map Prod.snd := by
      rw [hgv, List.filter_map]
      rfl
    have finish : ∀ p : ℕ × Event,
        p ∈ criticalOf w (df.enum.filter (fun q => q.2.movement == m && q.2.route == r)) →
        p.2 ∈ enhancedAt sel rate w df := by
      intro p hp
      have hne : df.enum.filter (fun q => q.2.movement == m && q.2.route == r) ≠ [] := by
        intro hemp
        rw [hemp, List.length_nil] at hlen
        omega
      have h2 : p ∈ sampleGroupEnhanced sel rate w
          (df.enum.filter (fun q => q.2.movement == m && q.2.route == r)) :=
        mem_sampleGroupEnhanced_of_critical sel rate w (by omega) hp
      have h3 : p ∈ groupsApply (sampleGroupEnhanced sel rate w) df.enum :=
        mem_groupsApply hne h2
      unfold enhancedAt
      rw [mem_sortLe, List.mem_map]
      exact ⟨p, h3, rfl⟩
    constructor
    · intro hx
      rw [hcg, List.head?_map] at hx
      cases hh : ((df.enum.filter (fun q => q.2.movement == m && q.2.route == r)).filter
          (fun q => q.2.circuit == c)).head? with
      | none => rw [hh] at hx; exact Option.noConfusion hx
      | some p =>
        rw [hh, Option.map_some'] at hx
        injection hx with hx
        rw [← hx]
        exact finish p (criticalOf_mem_head hw hh)
    · intro hx
      rw [hcg, List.getLast?_map] at hx
      cases hh : ((df.enum.filter (fun q => q.2.movement == m && q.2.route == r)).filter
          (fun q => q.2.circuit == c)).getLast? with
      | none => rw [hh] at hx; exact Option.noConfusion hx
      | some p =>
        rw [hh, Option.map_some'] at hx
        injection hx with hx
        rw [← hx]
        exact finish p (criticalOf_mem_last hw hh)

lemma keeps_basicAt {sel : Sel} (_hsel : ∀ l k p, p ∈ sel l k → p ∈ l)
    (factor : ℚ) (df : List Event) :
    keepsGroups df (basicAt sel factor df) := by
  intro r m
  have hgv : df.filter (fun e => e.movement == m && e.route == r) =
      (df.enum.filter (fun q => q.2.movement == m && q.2.route == r)).map Prod.snd :=
    (enum_filter_map_snd (fun e => e.movement == m && e.route == r) df).symm
  constructor
  · intro hlen e he
    rw [hgv] at he
    rw [hgv, List.length_map] at hlen
    rw [List.mem_map] at he
    obtain ⟨p, hpg, rfl⟩ := he
    have h1 : p ∈ sampleGroupBasic sel factor
        (df.enum.filter (fun q => q.2.movement == m && q.2.route == r)) := by
      rw [sampleGroupBasic_of_small sel factor (by omega)]
      exact hpg
    have h2 : p ∈ groupsApply (sampleGroupBasic sel factor) df.enum :=
      mem_groupsApply (List.ne_nil_of_mem hpg) h1
    unfold basicAt
    rw [List.mem_map]
    exact ⟨p, h2, rfl⟩
  · intro hlen c x
    rw [hgv, List.length_map] at hlen
    have hcg : (df.filter (fun e => e.movement == m && e.route == r)).filter
        (fun e => e.circuit == c) =
        ((df.enum.filter (fun q => q.2.movement == m && q.2.route == r)).filter
          (fun q => q.2.circuit == c)).map Prod.snd := by
      rw [hgv, List.filter_map]
      rfl
    have finish : ∀ p : ℕ × Event,
        p ∈ basicCriticalOf (df.enum.filter (fun q => q.2.movement == m && q.2.route == r)) →
        p.2 ∈ basicAt sel factor df := by
      intro p hp
      have hne : df.enum.filter (fun q => q.2.movement == m && q.2.route == r) ≠ [] := by
        intro hemp
        rw [hemp, List.length_nil] at hlen
        omega
      have h2 : p ∈ sampleGroupBasic sel factor
          (df.enum.filter (fun q => q.2.movement == m && q.2.route == r)) :=
        mem_sampleGroupBasic_of_critical sel factor hlen hp
      have h3 : p ∈ groupsApply (sampleGroupBasic sel factor) df.enum :=
        mem_groupsApply hne h2
      unfold basicAt
      rw [List.mem_map]
      exact ⟨p, h3, rfl⟩
    constructor
    · intro hx
      rw [hcg, List.head?_map] at hx
      cases hh : ((df.enum.filter (fun q => q.2.movement == m && q.2.route == r)).filter
          (fun q => q.2.circuit == c)).head? with
      | none => rw [hh] at hx; exact Option.noConfusion hx
      | some p =>
        rw [hh, Option.map_some'] at hx
        injection hx with hx
        rw [← hx]
        exact finish p (basicCriticalOf_mem_head hh)
    · intro hx
      rw [hcg, List.getLast?_map] at hx
      cases hh : ((df.enum.filter (fun q => q.2.movement == m && q.2.route == r)).filter
          (fun q => q.2.circuit == c)).getLast? with
      | none => rw [hh] at hx; exact Option.noConfusion hx
      | some p =>
        rw [hh, Option.map_some'] at hx
        injection hx with hx
        rw [← hx]
        exact finish p (basicCriticalOf_mem_last hh)

/-- Claim C5: for every oracle choosing among the non-critical rows, both
samplers return every `(route, movement)` group of at most 20 rows in its
entirety regardless of tier, and for larger groups never omit the first or
last event of any circuit within the group. -/
theorem C5_small_groups_and_endpoints :
    ∀ (sel : Sel) (df : List Event) (h : ℚ),
      (∀ l k p, p ∈ sel l k → p ∈ l) →
      keepsGroups df (apply_enhanced_adaptive_sampling sel df h) ∧
      keepsGroups df (apply_adaptive_sampling sel df h) := by
  intro sel df h hsel
  constructor
  · unfold apply_enhanced_adaptive_sampling
    split
    · exact keepsGroups_self df
    · split
      · exact keeps_enhancedAt hsel (3 / 10) (by norm_num) df
      · split
        · exact keeps_enhancedAt hsel (15 / 100) (by norm_num) df
        · exact keeps_enhancedAt hsel (5 / 100) (by norm_num) df
  · unfold apply_adaptive_sampling
    split
    · exact keepsGroups_self df
    · split
      · exact keeps_basicAt hsel (1 / 2) df
      · exact keeps_basicAt hsel (1 / 4) df

/-- Witness for C5 with the take-first oracle on the 30-row frame. -/
theorem C5_small_groups_and_endpoints_witness :
    keepsGroups dfLong (apply_enhanced_adaptive_sampling takeSel dfLong 30) ∧
    keepsGroups dfLong (apply_adaptive_sampling takeSel dfLong 30) :=
  C5_small_groups_and_endpoints takeSel dfLong 30
    (fun _ _ _ hp => List.mem_of_mem_take hp)

/-! ## Movement aggregation (claim C6) -/

lemma aggregateMovements_nil : aggregateMovements [] = [] := rfl

lemma mem_aggregateMovements {events : List Event} {mr : MovementRecord}
    (h : mr ∈ aggregateMovements events) :
    ∃ mid, mid ∈ (events.map (·.movement)).dedup ∧
      mr = movementRecordOf mid (events.filter (fun e => e.movement == mid)) := by
  simp only [aggregateMovements] at h
  split at h
  · rw [List.mem_map] at h
    obtain ⟨mid, hmid, hm⟩ := h
    exact ⟨mid, mem_sortLe.mp hmid, hm.symm⟩
  · rw [mem_sortLe, List.mem_map] at h
    obtain ⟨mid, hmid, hm⟩ := h
    exact ⟨mid, mem_sortLe.mp hmid, hm.symm⟩

lemma aggregateMovements_pairwise (events : List Event) :
    List.Pairwise (fun a b : MovementRecord => a.start_time ≤ b.start_time)
      (aggregateMovements events) := by
  simp only [aggregateMovements]
  split
  · rename_i hemp
    rw [List.isEmpty_iff] at hemp
    rw [hemp]
    exact List.Pairwise.nil
  · refine List.Pairwise.imp ?_ (pairwise_sortLe ?_ ?_
      ((sortLe strLeB ((events.map (·.movement)).dedup)).map (fun mid =>
        movementRecordOf mid (events.filter (fun e => e.movement == mid)))))
    · intro a b hab
      simpa using hab
    · intro a b c h1 h2
      simp only [decide_eq_true_eq] at *
      omega
    · intro a b
      rw [Bool.or_eq_true]
      simp only [decide_eq_true_eq]
      omega

lemma aggregateMovements_length (events : List Event) :
    (aggregateMovements events).length = ((events.map (·.movement)).dedup).length := by
  simp only [aggregateMovements]
  split
  · rw [List.length_map, length_sortLe]
  · rw [length_sortLe, List.length_map, length_sortLe]

/-- Claim C6: `calculate_movement_times` aggregates the correlated events by
`Movement_id`; each record carries the group's min down-time, max up-time,
their difference, the duration sum, the group size and the average duration
(well-defined: the group is non-empty, so no division by zero); the output is
ordered by start time ascending and empty input yields an empty result. -/
theorem C6_movement_aggregation :
    ∀ (files : List CSVFile) (name : String) (w : Option (Int × Int)) (events : List Event),
      calculate_movement_times files name w =
        aggregateMovements (get_circuit_data files name w) ∧
      aggregateMovements [] = [] ∧
      List.Pairwise (fun a b : MovementRecord => a.start_time ≤ b.start_time)
        (aggregateMovements events) ∧
      (aggregateMovements events).length = ((events.map (·.movement)).dedup).length ∧
      (∀ mid, mid ∈ events.map (·.movement) →
        ∃ mr ∈ aggregateMovements events, mr.movement_id = mid) ∧
      (∀ i, i < (aggregateMovements events).length →
        (let mr := (aggregateMovements events).getD i defaultRecord
         let g := events.filter (fun e => e.movement == mr.movement_id)
         g ≠ [] ∧ mr.start_time = minDown g ∧ mr.end_time = maxUp g ∧
         mr.total_journey_seconds = maxUp g - minDown g ∧
         mr.total_circuit_seconds = sumDur g ∧ mr.circuit_count = g.length ∧
         mr.average_circuit_duration = (sumDur g : ℚ) / (g.length : ℚ))) := by
  intro files name w events
  have hne_of_mid : ∀ mid, mid ∈ (events.map (·.movement)).dedup →
      events.filter (fun e => e.movement == mid) ≠ [] := by
    intro mid hmid
    rw [List.mem_dedup, List.mem_map] at hmid
    obtain ⟨e, he, hm⟩ := hmid
    have : e ∈ events.filter (fun e => e.movement == mid) := by
      rw [List.mem_filter]
      exact ⟨he, by simp [hm]⟩
    exact List.ne_nil_of_mem this
  refine ⟨?_, aggregateMovements_nil, aggregateMovements_pairwise events,
    aggregateMovements_length events, ?_, ?_⟩
  · simp only [calculate_movement_times]
    split
    · rename_i hemp
      rw [List.isEmpty_iff] at hemp
      rw [hemp]
      rfl
    · rfl
  · intro mid hmid
    have hdedup : mid ∈ (events.map (·.movement)).dedup := List.mem_dedup.mpr hmid
    have hmids : mid ∈ sortLe strLeB ((events.map (·.movement)).dedup) :=
      mem_sortLe.mpr hdedup
    have hrec : movementRecordOf mid (events.filter (fun e => e.movement == mid)) ∈
        (sortLe strLeB ((events.map (·.movement)).dedup)).map (fun mid =>
          movementRecordOf mid (events.filter (fun e => e.movement == mid))) :=
      List.mem_map.mpr ⟨mid, hmids, rfl⟩
    refine ⟨movementRecordOf mid (events.filter (fun e => e.movement == mid)), ?_, rfl⟩
    simp only [aggregateMovements]
    split
    · exact hrec
    · exact mem_sortLe.mpr hrec
  · intro i hi
    have hmem : (aggregateMovements events).getD i defaultRecord ∈ aggregateMovements events := by
      rw [List.getD_eq_getElem _ _ hi]
      exact List.getElem_mem _
    obtain ⟨mid, hmid, hmr⟩ := mem_aggregateMovements hmem
    have hgne := hne_of_mid mid hmid
    have hpos : 0 < (events.filter (fun e => e.movement == mid)).length :=
      List.length_pos.mpr hgne
    have hid : ((aggregateMovements events).getD i defaultRecord).movement_id = mid := by
      rw [hmr]
      rfl
    dsimp only
    rw [hid, hmr]
    refine ⟨hgne, rfl, rfl, rfl, rfl, rfl, ?_⟩
    simp only [movementRecordOf]
    rw [if_pos hpos]

/-- Witness for C6 at a concrete event collection. -/
theorem C6_movement_aggregation_witness :
    (∃ mr ∈ aggregateMovements eventsW, mr.movement_id = "M7") ∧
    (let mr := (aggregateMovements eventsW).getD 0 defaultRecord
     let g := eventsW.filter (fun e => e.movement == mr.movement_id)
     g ≠ [] ∧ mr.start_time = minDown g ∧ mr.end_time = maxUp g ∧
     mr.total_journey_seconds = maxUp g - minDown g ∧
     mr.total_circuit_seconds = sumDur g ∧ mr.circuit_count = g.length ∧
     mr.average_circuit_duration = (sumDur g : ℚ) / (g.length : ℚ)) :=
  ⟨(C6_movement_aggregation [] "" none eventsW).2.2.2.2.1 "M7" (by decide),
    (C6_movement_aggregation [] "" none eventsW).2.2.2.2.2 0 (by decide)⟩

/-! ## Lane layout (claim C7) -/

lemma mem_enumFrom_getD {α : Type _} (d : α) :
    ∀ (l : List α) (n i : ℕ), i < l.length → (n + i, l.getD i d) ∈ List.enumFrom n l := by
  intro l
  induction l with
  | nil => intro n i h; simp at h
  | cons a t ih =>
    intro n i h
    cases i with
    | zero => simp [List.enumFrom_cons]
    | succ i =>
      have h' : i < t.length := by simpa using Nat.lt_of_succ_lt_succ h
      simp only [List.enumFrom_cons, List.mem_cons]
      right
      have hn : n + (i + 1) = (n + 1) + i := by omega
      rw [hn, List.getD_cons_succ]
      exact ih (n + 1) i h'

lemma mem_enum_getD {α : Type _} (d : α) (l : List α) (i : ℕ) (h : i < l.length) :
    (i, l.getD i d) ∈ l.enum := by
  have := mem_enumFrom_getD d l 0 i h
  rwa [Nat.zero_add] at this

lemma layout_append_inv (st : Layout) (route_id : String) (seq : List String)
    (hseq : ¬ seq.isEmpty = true) (h : LayoutInv st) (labels : List String)
    (ticks : List ℚ) (bnds : List ℚ) (cmap : List (String × String)) :
    LayoutInv
      { y_positions := st.y_positions ++ seq.enum.map (fun p =>
          (route_id ++ "_" ++ p.2, st.current_y + (p.1 : ℚ))),
        current_y := st.current_y + (seq.length : ℚ) + 1,
        route_y_ranges := st.route_y_ranges ++
          [(route_id, st.current_y, st.current_y + (seq.length : ℚ) + 1 - 1)],
        y_labels := labels, y_ticks := ticks, route_boundaries := bnds,
        circuit_route_map := cmap, missing_route_data := st.missing_route_data } := by
  obtain ⟨hpw, hch, hlt, hlast, hgood⟩ := h
  have hne : seq ≠ [] := by
    rw [Bool.not_eq_true, ← Bool.not_eq_true, List.isEmpty_iff] at hseq
    exact hseq
  have hn0 : (0 : ℚ) ≤ (seq.length : ℚ) := by positivity
  refine ⟨?_, ?_, ?_, ?_, ?_⟩
  · rw [List.pairwise_append]
    refine ⟨hpw, List.pairwise_singleton _ _, ?_⟩
    intro a ha b hb
    rw [List.mem_singleton] at hb
    subst hb
    exact hlt a ha
  · rw [List.chain'_append]
    refine ⟨hch, List.chain'_singleton _, ?_⟩
    intro x hx y hy
    rw [List.head?_cons, Option.mem_def] at hy
    injection hy with hy
    subst hy
    exact hlast x (Option.mem_def.mp hx)
  · intro t ht
    rw [List.mem_append] at ht
    rcases ht with ht | ht
    · have := hlt t ht
      dsimp only
      linarith
    · rw [List.mem_singleton] at ht
      subst ht
      dsimp only
      linarith
  · intro t ht
    rw [List.getLast?_concat] at ht
    injection ht with ht
    subst ht
    dsimp only
    ring
  · intro t ht
    rw [List.mem_append] at ht
    rcases ht with ht | ht
    · obtain ⟨sq, h1, h2, h3⟩ := hgood t ht
      exact ⟨sq, h1, h2, fun i hi => List.mem_append_left _ (h3 i hi)⟩
    · rw [List.mem_singleton] at ht
      subst ht
      refine ⟨seq, hne, by dsimp only; ring, ?_⟩
      intro i hi
      refine List.mem_append_right _ ?_
      rw [List.mem_map]
      exact ⟨(i, seq.getD i ""), mem_enum_getD "" seq i hi, rfl⟩

lemma layoutStep_inv (rc : List (String × List String)) (df : List Event)
    (route_id : String) {st : Layout} (h : LayoutInv st) :
    LayoutInv (layoutStep rc df st route_id) := by
  simp only [layoutStep]
  by_cases h0 : (routeCircuitsLookup rc route_id).isEmpty = true
  · rw [if_pos h0]
    by_cases h1 : (extract_circuit_sequence df route_id).isEmpty = true
    · rw [if_pos h1]
      exact h
    · rw [if_neg h1]
      exact layout_append_inv st route_id _ h1 h _ _ _ _
  · rw [if_neg h0, if_neg h0]
    exact layout_append_inv st route_id _ h0 h _ _ _ _

lemma layout_foldl_inv (rc : List (String × List String)) (df : List Event) :
    ∀ (routes : List String) (st : Layout),
      LayoutInv st → LayoutInv (routes.foldl (layoutStep rc df) st) := by
  intro routes
  induction routes with
  | nil => intro st h; exact h
  | cons a t ih =>
    intro st h
    exact ih _ (layoutStep_inv rc df a h)

lemma layout_init_inv : LayoutInv ⟨[], 0, [], [], [], [], [], []⟩ := by
  refine ⟨List.Pairwise.nil, List.chain'_nil, ?_, ?_, ?_⟩
  · intro t ht; simp at ht
  · intro t ht; simp at ht
  · intro t ht; simp at ht

/-- Claim C7: the lane layout is collision-free — the closed y-bands of any
two distinct laid-out routes do not intersect, consecutive bands are
separated by exactly the one-unit gap, and within each band the route's
circuits sit at consecutive unit-spaced positions from the band start. -/
theorem C7_lane_layout :
    ∀ (unique_routes : List String) (route_circuits : List (String × List String))
      (df : List Event),
      List.Pairwise (fun a b : String × ℚ × ℚ => a.2.2 < b.2.1)
        (calculate_y_positions unique_routes route_circuits df).1.route_y_ranges ∧
      List.Chain' (fun a b : String × ℚ × ℚ => a.2.2 + 1 = b.2.1)
        (calculate_y_positions unique_routes route_circuits df).1.route_y_ranges ∧
      ∀ i, i < (calculate_y_positions unique_routes route_circuits df).1.route_y_ranges.length →
        RangeGood (calculate_y_positions unique_routes route_circuits df).1.y_positions
          ((calculate_y_positions unique_routes route_circuits df).1.route_y_ranges.getD i
            ("", 0, 0)) := by
  intro u rc df
  have h := layout_foldl_inv rc df u _ layout_init_inv
  obtain ⟨h1, h2, _, _, h5⟩ := h
  refine ⟨h1, h2, ?_⟩
  intro i hi
  refine h5 _ ?_
  rw [List.getD_eq_getElem _ _ hi]
  exact List.getElem_mem _

/-- Witness for C7 at a concrete two-route layout. -/
theorem C7_lane_layout_witness :
    RangeGood
      (calculate_y_positions ["R1", "R2"] [("R1", ["A", "B"]), ("R2", ["C"])] []).1.y_positions
      ((calculate_y_positions ["R1", "R2"] [("R1", ["A", "B"]), ("R2", ["C"])] []).1.route_y_ranges.getD
        1 ("", 0, 0)) :=
  (C7_lane_layout ["R1", "R2"] [("R1", ["A", "B"]), ("R2", ["C"])] []).2.2 1 (by decide)

/-! ## Lane label placement (claim C9) -/

/-- Claim C9 (code bug): on 79 lanes the stride is `79 / min 79 40 = 1`, so
every lane is labelled — 79 labels, far above the asserted ~40 cap (the
source's own comment says "40-50 max") — although the first and last lane
are indeed always included. -/
theorem C9_label_cap_violated :
    (labelIndices 79).length = 79 ∧ 40 < (labelIndices 79).length ∧
    50 < (labelIndices 79).length ∧ 0 ∈ labelIndices 79 ∧ 78 ∈ labelIndices 79 := by
  decide

end RailJunction
